import Mathlib

/-!
Shallow embedding of the IPsolver primal-dual interior-point solver
(`src/include/IPsolver/Solver.hh`, class `IPsolver::Solver`).

The scalar type `Real` of the source (a floating-point template parameter)
is modelled by `ℚ`; dense Eigen vectors and matrices are modelled by lists.
The elementary real functions (`std::sqrt`, `std::log`, `std::log10`) and the
dense LDLᵀ solve of Eigen are external collaborators of the repository (the
spec lists dense linear algebra and the math library as out of scope), so
they enter the embedding as function-valued fields of the configuration;
every theorem below either holds for all such models or instantiates them
concretely.
-/

namespace IPsolver

/-- Dense real vector (`Eigen::VectorXd`). -/
abbrev Vec := List ℚ

/-- Dense real matrix (`Eigen::MatrixXd`), stored as a list of rows. -/
abbrev Mat := List Vec

/-- Dot product of two vectors (`Eigen` `.dot`). -/
def dot (a b : Vec) : ℚ := (List.zipWith (· * ·) a b).sum

/-- Componentwise vector sum. -/
def vadd (a b : Vec) : Vec := List.zipWith (· + ·) a b

/-- Componentwise vector difference. -/
def vsub (a b : Vec) : Vec := List.zipWith (· - ·) a b

/-- Componentwise vector negation. -/
def vneg (a : Vec) : Vec := a.map (fun ai => -ai)

/-- Scalar times vector. -/
def smul (q : ℚ) (a : Vec) : Vec := a.map (fun ai => q * ai)

/-- Componentwise (Hadamard) product (`c.array() * z.array()`). -/
def hadamard (a b : Vec) : Vec := List.zipWith (· * ·) a b

/-- Matrix times vector (rows-of-lists representation). -/
def matVec (M : Mat) (v : Vec) : Vec := M.map (fun r => dot r v)

/-- Matrix times matrix. -/
def matMul (A B : Mat) : Mat :=
  A.map (fun r => (List.transpose B).map (fun col => dot r col))

/-- Componentwise matrix sum. -/
def matAdd (A B : Mat) : Mat := List.zipWith vadd A B

/-- Componentwise matrix difference. -/
def matSub (A B : Mat) : Mat := List.zipWith vsub A B

/-- Matrix divided by a scalar. -/
def matDiv (A : Mat) (q : ℚ) : Mat := A.map (fun r => r.map (fun x => x / q))

/-- Outer product of two vectors (`x * x.transpose()`). -/
def outer (a b : Vec) : Mat := a.map (fun ai => b.map (fun bj => ai * bj))

/-- Identity matrix (`Matrix::Identity(n, n)`). -/
def identityMat (n : ℕ) : Mat :=
  (List.range n).map (fun i => (List.range n).map (fun j => if i = j then (1 : ℚ) else 0))

/-- Diagonal matrix from a vector (`.asDiagonal()`). -/
def asDiagonal (d : Vec) : Mat :=
  (List.range d.length).map
    (fun i => (List.range d.length).map (fun j => if i = j then d.getD i 0 else 0))

/-- Smallest coefficient of a vector (`Eigen` `.minCoeff()`; the source never
calls it on an empty vector, where Eigen's behaviour is undefined). -/
def minCoeff : List ℚ → ℚ
  | [] => 0
  | [a] => a
  | a :: b :: t => min a (minCoeff (b :: t))

/-- Descent direction enumeration (`Solver::Descent`). -/
inductive Descent where
  | NEWTON
  | BFGS
  | STEEPEST
deriving DecidableEq, Repr

/-- Solver configuration: the scalar data members of `Solver` together with
models of the external routines the solver calls (`std::sqrt`, `std::log`,
`std::log10`, and Eigen's `ldlt().solve`, all external collaborators). -/
structure Config where
  descent : Descent
  tolerance : ℚ
  max_iterations : ℕ
  verbose : Bool
  epsilon : ℚ
  sigma_max : ℚ
  eta_max : ℚ
  mu_min : ℚ
  alpha_max : ℚ
  alpha_min : ℚ
  beta : ℚ
  tau : ℚ
  sqrt : ℚ → ℚ
  log : ℚ → ℚ
  log10 : ℚ → ℚ
  ldlt : Mat → Vec → Vec

/-- Euclidean norm of a vector (`.norm()`), through the configured model of
the external square root. -/
def vnorm (cfg : Config) (v : Vec) : ℚ := cfg.sqrt (dot v v)

/-- The six nullable callback members of `Solver` (`std::function` values,
null modelled by `none`). -/
structure Problem where
  objective : Option (Vec → ℚ)
  objective_gradient : Option (Vec → Vec)
  objective_hessian : Option (Vec → Mat)
  constraints : Option (Vec → Vec)
  constraints_jacobian : Option (Vec → Vec → Mat)
  lagrangian_hessian : Option (Vec → Vec → Mat)

/-- Failure modes of `solve` (`IPSOLVER_ASSERT` throws; constructors tag the
distinct assertion sites).  `factorizationIndefinite` exists only so that the
specification's claimed linear-algebra failure mode is statable: the source
contains no such check and never raises it.  `outOfFuel` is an artifact of
embedding the unbounded `while (true)` line-search loop with fuel. -/
inductive SolveError where
  | nullCallback (msg : String)
  | bfgsCondition
  | lineSearchTooSmall
  | factorizationIndefinite
  | outOfFuel
deriving DecidableEq, Repr

/-- One verbose telemetry data row, mirroring the columns of the
`std::cout` statement in `solve` (iteration, f, log10(mu), sigma,
the two residual norms, alpha, line-search count). -/
structure Row where
  iter : ℕ
  f : ℚ
  log10_mu : ℚ
  sigma : ℚ
  norm_r_x : ℚ
  norm_r_c : ℚ
  alpha : ℚ
  ls : ℕ
deriving DecidableEq, Repr

/-- Merit function `Solver::merit`:
`f - c.dot(z) - mu * ((c.array().square() * z.array() + epsilon).log().sum())`. -/
def merit (cfg : Config) (_x z : Vec) (f : ℚ) (c : Vec) (mu : ℚ) : ℚ :=
  f - dot c z - mu * (List.zipWith (fun ci zi => cfg.log (ci ^ 2 * zi + cfg.epsilon)) c z).sum

/-- Directional derivative of the merit function `Solver::grad_merit`. -/
def grad_merit (cfg : Config) (_x z p_x p_z g c : Vec) (J : Mat) (mu : ℚ) : ℚ :=
  dot p_x (vsub (vsub g (matVec (List.transpose J) z))
      (smul (2 * mu) (matVec (List.transpose J) (c.map (fun ci => 1 / (ci - cfg.epsilon))))))
    - dot p_z (vadd c (smul mu (z.map (fun zi => 1 / (zi + cfg.epsilon)))))

/-- BFGS update `Solver::bfgs_update`: asserts `y.dot(s) > 0`, then returns
`B - (x * x.transpose()) / (s.dot(x)) + (y * y.transpose()) / (y.dot(s))`
with `x = B * s`. -/
def bfgs_update (B : Mat) (s y : Vec) : Except SolveError Mat :=
  if 0 < dot y s then
    let x := matVec B s
    .ok (matAdd (matSub B (matDiv (outer x x) (dot s x))) (matDiv (outer y y) (dot y s)))
  else .error .bfgsCondition

/-- Fraction-to-boundary step length (`solve`, lines 535-540): start from
`alpha_max`; if any component of `z + p_z` is negative, scale by the smallest
masked ratio `z_i / (-p_z i)` capped at one. -/
def fractionToBoundary (cfg : Config) (z p_z : Vec) : ℚ :=
  let mask := List.zipWith (fun zi pzi => decide (zi + pzi < 0)) z p_z
  if mask.any (fun b => b) then
    let sel := List.zipWith (fun zi pzi => if zi + pzi < 0 then zi / (-pzi) else 1) z p_z
    cfg.alpha_max * min 1 (minCoeff sel)
  else cfg.alpha_max

/-- Modelled from the claim's words (claim C2 / spec §4.6): the step length
equals `alpha_max * min(1, min over the set of indices with p_z i negative of
z i / (-p_z i))`, the minimum over an empty index set being taken as one. -/
def specFractionToBoundary (cfg : Config) (z p_z : Vec) : ℚ :=
  cfg.alpha_max *
    min 1 (List.foldr (fun (zp : ℚ × ℚ) acc => if zp.2 < 0 then min (zp.1 / (-zp.2)) acc else acc)
      1 (z.zip p_z))

/-- Result of the backtracking line search: either an accepted candidate
(with the accepted step size and the number of trials), the fatal
"line search step size too small" assertion, or fuel exhaustion (an artifact
of embedding `while (true)`). -/
inductive LSResult where
  | accepted (x z : Vec) (alpha : ℚ) (ls : ℕ)
  | failed
  | outOfFuel
deriving DecidableEq, Repr

/-- Backtracking line search (`solve`, lines 546-570): try the candidate
`(x + alpha p_x, z + alpha p_z)`; accept when the constraints are
componentwise nonpositive and the merit decreases sufficiently, otherwise
shrink `alpha` by `beta` and fail as soon as the assert
`alpha > alpha_min` is violated. -/
def lineSearch (cfg : Config) (fF : Vec → ℚ) (cF : Vec → Vec) (p_x p_z : Vec)
    (psi dpsi eta mu : ℚ) (x z : Vec) : ℚ → ℕ → ℕ → LSResult
  | _alpha, _ls, 0 => .outOfFuel
  | alpha, ls, fuel + 1 =>
    let x_new := vadd x (smul alpha p_x)
    let z_new := vadd z (smul alpha p_z)
    let f := fF x_new
    let c := cF x_new
    let psi_new := merit cfg x_new z_new f c mu
    if (∀ ci ∈ c, ci ≤ 0) ∧ psi_new < psi + cfg.tau * eta * alpha * dpsi then
      .accepted x_new z_new alpha (ls + 1)
    else
      let alpha2 := cfg.beta * alpha
      if cfg.alpha_min < alpha2 then
        lineSearch cfg fF cF p_x p_z psi dpsi eta mu x z alpha2 (ls + 1) fuel
      else .failed

/-- Values computed at the top of each outer iteration of `solve`
(lines 485-505): callback responses, the KKT residuals and the centering
quantities. -/
structure IterData where
  f : ℚ
  c : Vec
  g : Vec
  J : Mat
  W : Mat
  B : Mat
  r_x : Vec
  r_c : Vec
  r_0 : Vec
  norm_r0 : ℚ
  eta : ℚ
  sigma : ℚ
  duality_gap : ℚ
  mu : ℚ

/-- Per-iteration evaluation and residual computation (`solve`, lines
485-505).  In NEWTON mode `B` is reassigned from the objective Hessian. -/
def iterCompute (cfg : Config) (fF : Vec → ℚ) (gF : Vec → Vec) (hF : Vec → Mat)
    (cF : Vec → Vec) (jF wF : Vec → Vec → Mat) (nv m : ℕ) (x z : Vec) (B : Mat) : IterData :=
  let f := fF x
  let c := cF x
  let g := gF x
  let J := jF x z
  let W := wF x z
  let B1 := if cfg.descent = Descent.NEWTON then hF x else B
  let r_x := vadd g (matVec (List.transpose J) z)
  let r_c := hadamard c z
  let r_0 := r_x ++ r_c
  let norm_r0 := cfg.sqrt (dot r_0 r_0)
  let eta := min cfg.eta_max (norm_r0 / (nv : ℚ))
  let sigma := min cfg.sigma_max (cfg.sqrt (norm_r0 / (nv : ℚ)))
  let duality_gap := -(dot c z)
  let mu := max cfg.mu_min (sigma * duality_gap / (m : ℚ))
  ⟨f, c, g, J, W, B1, r_x, r_c, r_0, norm_r0, eta, sigma, duality_gap, mu⟩

/-- One telemetry row as assembled by the `std::cout` statement of `solve`
(lines 508-511): `iter+1, f, log10(mu), sigma, ||r_x||, ||r_c||, alpha, ls`. -/
def mkRow (cfg : Config) (iter : ℕ) (q : IterData) (alpha : ℚ) (ls : ℕ) : Row :=
  ⟨iter + 1, q.f, cfg.log10 q.mu, q.sigma, vnorm cfg q.r_x, vnorm cfg q.r_c, alpha, ls⟩

/-- BFGS gating in `solve` (lines 517-520): the update runs only in BFGS
mode and only when the iteration counter exceeds zero. -/
def bfgsPhase (cfg : Config) (iter : ℕ) (B : Mat) (alpha : ℚ) (p_x g g_old : Vec) :
    Except SolveError Mat :=
  if cfg.descent = Descent.BFGS ∧ 0 < iter then bfgs_update B (smul alpha p_x) (vsub g g_old)
  else .ok B

/-- Reduced Hessian `H = B + W - J.transpose() * S * J` (`solve`, line 527). -/
def reducedHessian (B W J S : Mat) : Mat :=
  matSub (matAdd B W) (matMul (matMul (List.transpose J) S) J)

/-- Search-direction computation (`solve`, lines 524-529): diagonal scaling,
reduced gradient, LDLᵀ solve for `p_x`, and the dual direction `p_z`.  The
solve is unconditional: the source inspects neither definiteness nor
finiteness of the factorization. -/
def stepDirections (cfg : Config) (B W J : Mat) (c g z : Vec) (mu : ℚ) : Vec × Vec :=
  let c_eps := c.map (fun ci => ci - cfg.epsilon)
  let S := asDiagonal (List.zipWith (fun zi ci => zi / ci) z c_eps)
  let g_b := vsub g (smul mu (matVec (List.transpose J) (c_eps.map (fun ci => 1 / ci))))
  let H := reducedHessian B W J S
  let p_x := cfg.ldlt H (vneg g_b)
  let p_z := vneg (vadd (vadd z (smul mu (c_eps.map (fun ci => 1 / ci))))
    (matVec (matMul S J) p_x))
  (p_x, p_z)

/-- Mutable loop state of `solve`: the primal/dual iterates, the Hessian
approximation, the previous gradient and directions, and the previous
iteration's step size and line-search count. -/
structure LoopState where
  x : Vec
  z : Vec
  B : Mat
  g_old : Vec
  p_x : Vec
  p_z : Vec
  alpha : ℚ
  ls : ℕ

/-- State committed at the end of a successful line search (`solve`, lines
561-563): `x` and `z` become the accepted candidate and the current gradient
is saved as `g_old`. -/
def nextState (xn zn : Vec) (B : Mat) (g p_x p_z : Vec) (a : ℚ) (l : ℕ) : LoopState :=
  ⟨xn, zn, B, g, p_x, p_z, a, l⟩

/-- Initial loop state of `solve` (lines 461-477): `x` from the guess, `z`
all ones, `B` the identity, empty `g_old`/directions, `alpha = 0`, `ls = 0`. -/
def initState (x_guess : Vec) (m : ℕ) : LoopState :=
  ⟨x_guess, List.replicate m 1, identityMat x_guess.length, [], [], [], 0, 0⟩

/-- Outcome of the iteration loop: the returned vector or the propagated
assertion failure, the verbose rows emitted, the number of loop entries, and
the number of entries that performed the step computation. -/
structure LoopOut where
  result : Except SolveError Vec
  rows : List Row
  iters : ℕ
  steps : ℕ
deriving Repr

/-- The outer iteration loop of `solve` (lines 478-571), by recursion on the
remaining iteration budget.  Each entry evaluates the callbacks and
residuals, optionally emits one telemetry row, checks convergence, runs the
gated BFGS update, computes the search directions, applies the
fraction-to-boundary rule and runs the backtracking line search. -/
def solveLoop (cfg : Config) (fF : Vec → ℚ) (gF : Vec → Vec) (hF : Vec → Mat)
    (cF : Vec → Vec) (jF wF : Vec → Vec → Mat) (n m : ℕ) (lsFuel : ℕ) :
    ℕ → ℕ → LoopState → LoopOut
  | 0, _iter, st => ⟨.ok st.x, [], 0, 0⟩
  | remaining + 1, iter, st =>
    let q := iterCompute cfg fF gF hF cF jF wF (n + m) m st.x st.z st.B
    let rows := if cfg.verbose then [mkRow cfg iter q st.alpha st.ls] else []
    if q.norm_r0 / ((n + m : ℕ) : ℚ) < cfg.tolerance then
      ⟨.ok st.x, rows, 1, 0⟩
    else
      match bfgsPhase cfg iter q.B st.alpha st.p_x q.g st.g_old with
      | .error e => ⟨.error e, rows, 1, 0⟩
      | .ok B1 =>
        let pd := stepDirections cfg B1 q.W q.J q.c q.g st.z q.mu
        let alpha0 := fractionToBoundary cfg st.z pd.2
        let psi := merit cfg st.x st.z q.f q.c q.mu
        let dpsi := grad_merit cfg st.x st.z pd.1 pd.2 q.g q.c q.J q.mu
        match lineSearch cfg fF cF pd.1 pd.2 psi dpsi q.eta q.mu st.x st.z alpha0 0 lsFuel with
        | .failed => ⟨.error .lineSearchTooSmall, rows, 1, 1⟩
        | .outOfFuel => ⟨.error .outOfFuel, rows, 1, 1⟩
        | .accepted xn zn a l =>
          let out := solveLoop cfg fF gF hF cF jF wF n m lsFuel remaining (iter + 1)
            (nextState xn zn B1 q.g pd.1 pd.2 a l)
          ⟨out.result, rows ++ out.rows, out.iters + 1, out.steps + 1⟩

/-- Observable outcome of one `solve` call: result, whether the header line
was emitted, the telemetry rows, and the iteration/step counters. -/
structure SolveOutput where
  result : Except SolveError Vec
  header : Bool
  rows : List Row
  iters : ℕ
  steps : ℕ
deriving Repr

/-- Output of an entry-validation failure: the assert throws before the
header is printed and before any iteration runs. -/
def nullOut (msg : String) : SolveOutput :=
  ⟨.error (.nullCallback msg), false, [], 0, 0⟩

/-- Body of `solve` after entry validation (lines 457-572): sizes are taken
from the guess and from one constraints call, the loop state is initialized,
the header is printed iff verbose, and the iteration loop runs. -/
def solveMain (cfg : Config) (fF : Vec → ℚ) (gF : Vec → Vec) (hF : Vec → Mat)
    (cF : Vec → Vec) (jF wF : Vec → Vec → Mat) (x_guess : Vec) (lsFuel : ℕ) : SolveOutput :=
  let c := cF x_guess
  let n := x_guess.length
  let m := c.length
  let out := solveLoop cfg fF gF hF cF jF wF n m lsFuel cfg.max_iterations 0
    (initState x_guess m)
  ⟨out.result, cfg.verbose, out.rows, out.iters, out.steps⟩

/-- The method `Solver::solve` (lines 440-575): the six entry asserts in
source order (the Hessian is required only when the descent mode is NEWTON),
then the main iteration. -/
def solve (cfg : Config) (P : Problem) (x_guess : Vec) (lsFuel : ℕ) : SolveOutput :=
  match P.objective with
  | none => nullOut "objective function must not be null"
  | some fF =>
    match P.objective_gradient with
    | none => nullOut "gradient of the objective function must not be null"
    | some gF =>
      if cfg.descent = Descent.NEWTON ∧ P.objective_hessian.isNone then
        nullOut "hessian of the objective function must not be null"
      else
        match P.constraints with
        | none => nullOut "constraints function must not be null"
        | some cF =>
          match P.constraints_jacobian with
          | none => nullOut "jacobian of the constraints function must not be null"
          | some jF =>
            match P.lagrangian_hessian with
            | none => nullOut "lagrangian hessian function must not be null"
            | some wF =>
              solveMain cfg fF gF (P.objective_hessian.getD (fun _ => [])) cF jF wF
                x_guess lsFuel

/-- A solver instance: its callback members and its configuration members,
for the state-passing formulation of the frame property of `solve`. -/
structure SolverObj where
  prob : Problem
  cfg : Config

/-- State-passing form of the method call `s.solve(x_guess)`: the source
method reads data members but contains no assignment to any of them, so the
instance is returned unchanged alongside the output. -/
def SolverObj.solveRun (s : SolverObj) (x_guess : Vec) (lsFuel : ℕ) : SolveOutput × SolverObj :=
  (solve s.cfg s.prob x_guess lsFuel, s)

/-- A symmetric matrix is indefinite in the sense relevant to LDLᵀ when its
quadratic form takes a negative value. -/
def indefiniteQF (H : Mat) : Prop := ∃ v : Vec, dot v (matVec H v) < 0

/-- The solve ended in the entry-validation (null-callback) error. -/
def isNullCallbackError (out : SolveOutput) : Prop :=
  ∃ msg, out.result = .error (.nullCallback msg)

/-- The solve reported the specification's linear-algebra failure mode. -/
def isFactorizationError (out : SolveOutput) : Bool :=
  match out.result with
  | .error .factorizationIndefinite => true
  | _ => false

/-! ### Concrete instances used by witnesses and counterexamples. -/

/-- Concrete model of the dense LDLᵀ solve for one-dimensional systems, the
only size the concrete instances below exercise. -/
def ldlt1 : Mat → Vec → Vec
  | [[h]], [b0] => [b0 / h]
  | _, _ => []

/-- Concrete configuration with the default member values of `Solver`
(BFGS descent, tolerance `1e-6`, `epsilon = 1e-8`, `sigma_max = 0.5`,
`eta_max = 0.25`, `mu_min = 1e-9`, `alpha_max = 0.995`, `alpha_min = 1e-6`,
`beta = 0.75`, `tau = 0.01`) and simple exact models of the external
routines. -/
def cfgD : Config where
  descent := .BFGS
  tolerance := 1 / 1000000
  max_iterations := 100
  verbose := false
  epsilon := 1 / 100000000
  sigma_max := 1 / 2
  eta_max := 1 / 4
  mu_min := 1 / 1000000000
  alpha_max := 199 / 200
  alpha_min := 1 / 1000000
  beta := 3 / 4
  tau := 1 / 100
  sqrt := fun q => q
  log := fun q => q
  log10 := fun q => q
  ldlt := ldlt1

/-- One-variable, one-constraint problem with constant callbacks: objective
zero, gradient one, constraint `-1`, zero Jacobian and Lagrangian Hessian. -/
def probW : Problem :=
  ⟨some (fun _ => 0), some (fun _ => [1]), none, some (fun _ => [-1]),
    some (fun _ _ => [[0]]), some (fun _ _ => [[0]])⟩

/-- Problem with every callback null. -/
def probNull : Problem := ⟨none, none, none, none, none, none⟩

/-! ### Claims. -/

/-- Claim C4: for every input `(x, z, f, c, mu)`, the merit function
evaluated by the solver equals `f - cᵀz - mu * Σ log(cᵢ² zᵢ + ε)`, and its
directional derivative along `(p_x, p_z)` equals
`p_xᵀ [g - Jᵀz - 2 mu Jᵀ (1/(c-ε))] - p_zᵀ [c + mu (1/(z+ε))]`, where `ε` is
the configured numerical floor. -/
theorem claim_C4 :
    ∀ (cfg : Config) (x z : Vec) (f : ℚ) (c : Vec) (mu : ℚ) (p_x p_z g : Vec) (J : Mat),
      merit cfg x z f c mu
        = f - dot c z
          - mu * (List.zipWith (fun ci zi => cfg.log (ci * ci * zi + cfg.epsilon)) c z).sum
      ∧ grad_merit cfg x z p_x p_z g c J mu
        = dot p_x (vsub (vsub g (matVec (List.transpose J) z))
            (smul (2 * mu) (matVec (List.transpose J)
              (c.map (fun ci => 1 / (ci - cfg.epsilon))))))
          - dot p_z (vadd c (smul mu (z.map (fun zi => 1 / (zi + cfg.epsilon))))) := by
  intro cfg x z f c mu p_x p_z g J
  constructor
  · simp only [merit, pow_two]
  · rfl

/-- Claim C5: for every `B, s, y` with `yᵀs > 0` the BFGS update returns
`B - (Bs)(Bs)ᵀ/(sᵀBs) + yyᵀ/(yᵀs)`; when `yᵀs ≤ 0` it fails instead of
returning a matrix; in BFGS mode the update is applied only when the
iteration counter exceeds zero (skipped at the first iteration), and `B` is
initialized to the identity. -/
theorem claim_C5 :
    (∀ (B : Mat) (s y : Vec), 0 < dot y s →
      bfgs_update B s y = .ok (matAdd
        (matSub B (matDiv (outer (matVec B s) (matVec B s)) (dot s (matVec B s))))
        (matDiv (outer y y) (dot y s))))
    ∧ (∀ (B : Mat) (s y : Vec), dot y s ≤ 0 → bfgs_update B s y = .error .bfgsCondition)
    ∧ (∀ (cfg : Config) (B : Mat) (alpha : ℚ) (p_x g g_old : Vec),
        bfgsPhase cfg 0 B alpha p_x g g_old = .ok B)
    ∧ (∀ (cfg : Config) (iter : ℕ) (B : Mat) (alpha : ℚ) (p_x g g_old : Vec),
        cfg.descent = Descent.BFGS → 0 < iter →
          bfgsPhase cfg iter B alpha p_x g g_old
            = bfgs_update B (smul alpha p_x) (vsub g g_old))
    ∧ (∀ (x_guess : Vec) (m : ℕ), (initState x_guess m).B = identityMat x_guess.length) := by
  refine ⟨?_, ?_, ?_, ?_, ?_⟩
  · intro B s y h
    simp only [bfgs_update, if_pos h]
  · intro B s y h
    simp only [bfgs_update, if_neg (not_lt.mpr h)]
  · intro cfg B alpha p_x g g_old
    simp [bfgsPhase]
  · intro cfg iter B alpha p_x g g_old h1 h2
    simp only [bfgsPhase, if_pos (And.intro h1 h2)]
  · intro x_guess m
    rfl

/-- Witness for claim C5 at a concrete input with `yᵀs = 3 > 0`. -/
theorem claim_C5_witness :
    0 < dot [3] [1]
    ∧ bfgs_update [[2]] [1] [3] = .ok (matAdd
        (matSub [[2]] (matDiv (outer (matVec [[2]] [1]) (matVec [[2]] [1]))
          (dot [1] (matVec [[2]] [1]))))
        (matDiv (outer [3] [3]) (dot [3] [1]))) :=
  ⟨by norm_num [dot], claim_C5.1 [[2]] [1] [3] (by norm_num [dot])⟩

/-- Claim C10: a solve call leaves the solver instance untouched: every
configuration member and every callback member compares identical before and
after the call (the embedding passes the instance state explicitly; the
caller's `x_guess` is taken by value, so its immutability is intrinsic). -/
theorem claim_C10 :
    ∀ (s : SolverObj) (x_guess : Vec) (lsFuel : ℕ),
      (s.solveRun x_guess lsFuel).2.cfg.descent = s.cfg.descent
      ∧ (s.solveRun x_guess lsFuel).2.cfg.tolerance = s.cfg.tolerance
      ∧ (s.solveRun x_guess lsFuel).2.cfg.max_iterations = s.cfg.max_iterations
      ∧ (s.solveRun x_guess lsFuel).2.cfg.verbose = s.cfg.verbose
      ∧ (s.solveRun x_guess lsFuel).2.cfg.epsilon = s.cfg.epsilon
      ∧ (s.solveRun x_guess lsFuel).2.cfg.sigma_max = s.cfg.sigma_max
      ∧ (s.solveRun x_guess lsFuel).2.cfg.eta_max = s.cfg.eta_max
      ∧ (s.solveRun x_guess lsFuel).2.cfg.mu_min = s.cfg.mu_min
      ∧ (s.solveRun x_guess lsFuel).2.cfg.alpha_max = s.cfg.alpha_max
      ∧ (s.solveRun x_guess lsFuel).2.cfg.alpha_min = s.cfg.alpha_min
      ∧ (s.solveRun x_guess lsFuel).2.cfg.beta = s.cfg.beta
      ∧ (s.solveRun x_guess lsFuel).2.cfg.tau = s.cfg.tau
      ∧ (s.solveRun x_guess lsFuel).2.prob.objective = s.prob.objective
      ∧ (s.solveRun x_guess lsFuel).2.prob.objective_gradient = s.prob.objective_gradient
      ∧ (s.solveRun x_guess lsFuel).2.prob.objective_hessian = s.prob.objective_hessian
      ∧ (s.solveRun x_guess lsFuel).2.prob.constraints = s.prob.constraints
      ∧ (s.solveRun x_guess lsFuel).2.prob.constraints_jacobian = s.prob.constraints_jacobian
      ∧ (s.solveRun x_guess lsFuel).2.prob.lagrangian_hessian = s.prob.lagrangian_hessian
      ∧ (s.solveRun x_guess lsFuel).2 = s := by
  intro s x_guess lsFuel
  exact ⟨rfl, rfl, rfl, rfl, rfl, rfl, rfl, rfl, rfl, rfl, rfl, rfl, rfl, rfl, rfl, rfl,
    rfl, rfl, rfl⟩

/-- Claim C3: in every iteration of `solve`, the residual and centering
quantities satisfy `r_x = g + Jᵀz`, `r_c = c ⊙ z`, `r_0` their concatenation
of length `ν = n + m`, `η = min(η_max, ‖r₀‖/ν)`,
`σ = min(σ_max, sqrt(‖r₀‖/ν))`, `duality_gap = -cᵀz` and
`μ = max(μ_min, σ·duality_gap/m)`. -/
theorem claim_C3 :
    ∀ (cfg : Config) (fF : Vec → ℚ) (gF : Vec → Vec) (hF : Vec → Mat) (cF : Vec → Vec)
      (jF wF : Vec → Vec → Mat) (n m : ℕ) (x z : Vec) (B : Mat),
      let q := iterCompute cfg fF gF hF cF jF wF (n + m) m x z B
      q.r_x = vadd (gF x) (matVec (List.transpose (jF x z)) z)
      ∧ q.r_c = hadamard (cF x) z
      ∧ q.r_0 = q.r_x ++ q.r_c
      ∧ q.eta = min cfg.eta_max (vnorm cfg q.r_0 / ((n + m : ℕ) : ℚ))
      ∧ q.sigma = min cfg.sigma_max (cfg.sqrt (vnorm cfg q.r_0 / ((n + m : ℕ) : ℚ)))
      ∧ q.duality_gap = -(dot (cF x) z)
      ∧ q.mu = max cfg.mu_min (q.sigma * q.duality_gap / (m : ℚ))
      ∧ ((gF x).length = n → (List.transpose (jF x z)).length = n →
          (cF x).length = m → z.length = m → q.r_0.length = n + m) := by
  intro cfg fF gF hF cF jF wF n m x z B
  refine ⟨rfl, rfl, rfl, rfl, rfl, rfl, rfl, ?_⟩
  intro h1 h2 h3 h4
  simp [iterCompute, vadd, hadamard, matVec, List.length_zipWith, List.length_map, h1, h2, h3, h4]

/-- A fold of `min` with base one never exceeds one. -/
lemma foldr_min_le_one (l : List ℚ) : l.foldr min 1 ≤ 1 := by
  induction l with
  | nil => simp
  | cons a t ih => exact le_trans (min_le_right a _) ih

/-- Capping `minCoeff` of a nonempty list at one is the `min`-fold with base
one. -/
lemma min_one_minCoeff (a : ℚ) (t : List ℚ) :
    min 1 (minCoeff (a :: t)) = (a :: t).foldr min 1 := by
  induction t generalizing a with
  | nil =>
    show min 1 (minCoeff [a]) = min a 1
    simp [minCoeff, min_comm]
  | cons b t ih =>
    show min 1 (min a (minCoeff (b :: t))) = min a ((b :: t).foldr min 1)
    rw [← ih b, min_left_comm]

/-- The fold written from the claim's words never exceeds one. -/
lemma spec_foldr_le_one (l : List (ℚ × ℚ)) :
    l.foldr (fun (zp : ℚ × ℚ) acc => if zp.2 < 0 then min (zp.1 / (-zp.2)) acc else acc) 1
      ≤ 1 := by
  induction l with
  | nil => simp
  | cons p t ih =>
    simp only [List.foldr_cons]
    split
    · exact le_trans (min_le_right _ _) ih
    · exact ih

/-- When no component of `z + p_z` is negative every selected entry is one,
so the fold collapses to one. -/
lemma sel_foldr_eq_one (z pz : List ℚ)
    (h : (List.zipWith (fun zi pzi => decide (zi + pzi < 0)) z pz).any (fun b => b) = false) :
    (List.zipWith (fun zi pzi => if zi + pzi < 0 then zi / (-pzi) else 1) z pz).foldr min 1
      = 1 := by
  induction z generalizing pz with
  | nil => simp
  | cons z0 zt ih =>
    cases pz with
    | nil => simp
    | cons p0 pt =>
      simp only [List.zipWith_cons_cons, List.any_cons, Bool.or_eq_false_iff,
        decide_eq_false_iff_not] at h
      simp only [List.zipWith_cons_cons, List.foldr_cons, if_neg h.1, ih pt h.2, min_self]

/-- Under dual feasibility (`z > 0` componentwise), the source's masked fold
over `(z + p_z) < 0` equals the claim's fold over `p_z < 0`. -/
lemma sel_foldr_eq_spec (z pz : List ℚ) (hz : ∀ a ∈ z, 0 < a) :
    (List.zipWith (fun zi pzi => if zi + pzi < 0 then zi / (-pzi) else 1) z pz).foldr min 1
      = (z.zip pz).foldr
          (fun (zp : ℚ × ℚ) acc => if zp.2 < 0 then min (zp.1 / (-zp.2)) acc else acc) 1 := by
  induction z generalizing pz with
  | nil => simp
  | cons z0 zt ih =>
    cases pz with
    | nil => simp
    | cons p0 pt =>
      have hz0 : 0 < z0 := hz z0 (List.mem_cons_self z0 zt)
      have hzt : ∀ a ∈ zt, 0 < a := fun a ha => hz a (List.mem_cons_of_mem z0 ha)
      simp only [List.zipWith_cons_cons, List.zip_cons_cons, List.foldr_cons]
      by_cases h : z0 + p0 < 0
      · have hp0 : p0 < 0 := by linarith
        rw [if_pos h, if_pos hp0, ih pt hzt]
      · rw [if_neg h]
        by_cases hp : p0 < 0
        · rw [if_pos hp, ih pt hzt]
          have hpos : 0 < -p0 := by linarith
          have hr : 1 ≤ z0 / (-p0) := by
            rw [le_div_iff₀ hpos]
            linarith
          rw [min_eq_right (spec_foldr_le_one _),
            min_eq_right (le_trans (spec_foldr_le_one _) hr)]
        · rw [if_neg hp, ih pt hzt, min_eq_right (spec_foldr_le_one _)]

/-- If some mask entry is set, the selected list is nonempty. -/
lemma zip_sel_ne_nil (z pz : List ℚ)
    (h : (List.zipWith (fun zi pzi => decide (zi + pzi < 0)) z pz).any (fun b => b) = true) :
    (List.zipWith (fun zi pzi => if zi + pzi < 0 then zi / (-pzi) else 1) z pz) ≠ [] := by
  cases z with
  | nil => simp at h
  | cons z0 zt =>
    cases pz with
    | nil => simp at h
    | cons p0 pt => simp

/-- Claim C2: in every iteration of `solve`, with dual feasibility `z > 0`
componentwise (the solver's documented invariant), the step length entering
the backtracking loop equals the fraction-to-boundary value
`α_max · min(1, min over the indices with negative p_z of zᵢ/(−p_zᵢ))`. -/
theorem claim_C2 :
    ∀ (cfg : Config) (z p_z : Vec), (∀ zi ∈ z, 0 < zi) →
      fractionToBoundary cfg z p_z = specFractionToBoundary cfg z p_z := by
  intro cfg z pz hz
  simp only [fractionToBoundary, specFractionToBoundary]
  by_cases h :
      (List.zipWith (fun zi pzi => decide (zi + pzi < 0)) z pz).any (fun b => b) = true
  · rw [if_pos h]
    obtain ⟨a, t, hat⟩ : ∃ a t,
        List.zipWith (fun zi pzi => if zi + pzi < 0 then zi / (-pzi) else 1) z pz = a :: t := by
      rcases hsel : List.zipWith (fun zi pzi => if zi + pzi < 0 then zi / (-pzi) else 1) z pz
        with _ | ⟨a, t⟩
      · exact absurd hsel (zip_sel_ne_nil z pz h)
      · exact ⟨a, t, rfl⟩
    rw [hat, min_one_minCoeff, ← hat, sel_foldr_eq_spec z pz hz,
      min_eq_right (spec_foldr_le_one _)]
  · rw [if_neg h]
    have h' : (List.zipWith (fun zi pzi => decide (zi + pzi < 0)) z pz).any (fun b => b)
        = false := by
      simpa using h
    rw [← sel_foldr_eq_spec z pz hz, sel_foldr_eq_one z pz h', min_self, mul_one]

/-- Witness for claim C2 at a concrete dual-feasible input. -/
theorem claim_C2_witness :
    (∀ zi ∈ ([1, 2] : Vec), 0 < zi)
    ∧ fractionToBoundary cfgD [1, 2] [-2, 1] = specFractionToBoundary cfgD [1, 2] [-2, 1] :=
  ⟨by decide, claim_C2 cfgD [1, 2] [-2, 1] (by decide)⟩

/-- Claim C1 (amended): in the backtracking line search, a candidate
`(x + αp_x, z + αp_z)` is accepted exactly when the constraints at it are
componentwise nonpositive and the merit satisfies the sufficient-decrease
bound `ψ⁺ < ψ + τ·η·α·Dψ`; on acceptance the loop commits `(x, z)` to the
candidate and saves the current gradient as `g_old`; on rejection `α` is
replaced by `β·α`, and the solve fails fatally with "line search step size
too small" exactly when the new `α` fails to exceed `α_min`
(`α ≤ α_min`). -/
theorem claim_C1 :
    (∀ (cfg : Config) (fF : Vec → ℚ) (cF : Vec → Vec) (p_x p_z : Vec) (psi dpsi eta mu : ℚ)
        (x z : Vec) (alpha : ℚ) (ls fuel : ℕ),
      (((∀ ci ∈ cF (vadd x (smul alpha p_x)), ci ≤ 0)
          ∧ merit cfg (vadd x (smul alpha p_x)) (vadd z (smul alpha p_z))
              (fF (vadd x (smul alpha p_x))) (cF (vadd x (smul alpha p_x))) mu
            < psi + cfg.tau * eta * alpha * dpsi) →
        lineSearch cfg fF cF p_x p_z psi dpsi eta mu x z alpha ls (fuel + 1)
          = .accepted (vadd x (smul alpha p_x)) (vadd z (smul alpha p_z)) alpha (ls + 1))
      ∧ (¬((∀ ci ∈ cF (vadd x (smul alpha p_x)), ci ≤ 0)
          ∧ merit cfg (vadd x (smul alpha p_x)) (vadd z (smul alpha p_z))
              (fF (vadd x (smul alpha p_x))) (cF (vadd x (smul alpha p_x))) mu
            < psi + cfg.tau * eta * alpha * dpsi) →
          cfg.alpha_min < cfg.beta * alpha →
          lineSearch cfg fF cF p_x p_z psi dpsi eta mu x z alpha ls (fuel + 1)
            = lineSearch cfg fF cF p_x p_z psi dpsi eta mu x z (cfg.beta * alpha) (ls + 1) fuel)
      ∧ (¬((∀ ci ∈ cF (vadd x (smul alpha p_x)), ci ≤ 0)
          ∧ merit cfg (vadd x (smul alpha p_x)) (vadd z (smul alpha p_z))
              (fF (vadd x (smul alpha p_x))) (cF (vadd x (smul alpha p_x))) mu
            < psi + cfg.tau * eta * alpha * dpsi) →
          cfg.beta * alpha ≤ cfg.alpha_min →
          lineSearch cfg fF cF p_x p_z psi dpsi eta mu x z alpha ls (fuel + 1) = .failed))
    ∧ (∀ (xn zn : Vec) (B : Mat) (g p_x p_z : Vec) (a : ℚ) (l : ℕ),
        (nextState xn zn B g p_x p_z a l).x = xn ∧ (nextState xn zn B g p_x p_z a l).z = zn
        ∧ (nextState xn zn B g p_x p_z a l).g_old = g) := by
  constructor
  · intro cfg fF cF p_x p_z psi dpsi eta mu x z alpha ls fuel
    refine ⟨?_, ?_, ?_⟩
    · intro h
      simp only [lineSearch]
      rw [if_pos h]
    · intro h h2
      simp only [lineSearch]
      rw [if_neg h, if_pos h2]
    · intro h h2
      simp only [lineSearch]
      rw [if_neg h, if_neg (not_lt.mpr h2)]
  · intro xn zn B g p_x p_z a l
    exact ⟨rfl, rfl, rfl⟩

/-- Witness for claim C1: a concrete accepted candidate. -/
theorem claim_C1_witness :
    lineSearch cfgD (fun _ => 0) (fun _ => [-1]) [0] [0] 2 0 0 0 [0] [1] 1 0 (0 + 1)
      = .accepted (vadd [0] (smul 1 [0])) (vadd [1] (smul 1 [0])) 1 (0 + 1) :=
  (claim_C1.1 cfgD (fun _ => 0) (fun _ => [-1]) [0] [0] 2 0 0 0 [0] [1] 1 0 0).1
    (by
      constructor
      · intro ci hci
        simp only [List.mem_singleton] at hci
        norm_num [hci]
      · norm_num [merit, dot, vadd, smul, cfgD])

/-- Configuration exercising the boundary of the line-search assert. -/
def cfgC1 : Config := { cfgD with beta := 1 / 2, alpha_min := 1 / 2 }

/-- Counterexample to claim C1 as stated: with `β·α = α_min` exactly
(`β = α_min = 1/2`, `α = 1`) and a rejected candidate, the solve fails
("line search step size too small") although the shrunk step size is not
strictly below `α_min`. -/
theorem claim_C1_counterexample :
    ¬(cfgC1.beta * 1 < cfgC1.alpha_min)
    ∧ lineSearch cfgC1 (fun _ => 0) (fun _ => [1]) [0] [0] 0 0 0 0 [0] [1] 1 0 (4 + 1)
      = .failed := by
  constructor
  · norm_num [cfgC1, cfgD]
  · simp only [lineSearch]
    split
    · rename_i h
      exfalso
      have h1 := h.1 1 (by simp)
      norm_num at h1
    · split
      · rename_i h2
        exfalso
        rw [show cfgC1.alpha_min = 1 / 2 from rfl, show cfgC1.beta = 1 / 2 from rfl] at h2
        norm_num at h2
      · rfl

/-- Witness for claim C3 at a concrete one-variable, one-constraint input:
the concatenated residual has length `1 + 1`. -/
theorem claim_C3_witness :
    (iterCompute cfgD (fun _ => 0) (fun _ => [1]) (fun _ => [[1]]) (fun _ => [-1])
        (fun _ _ => [[0]]) (fun _ _ => [[0]]) (1 + 1) 1 [0] [1] [[1]]).r_0.length = 1 + 1 :=
  (claim_C3 cfgD (fun _ => 0) (fun _ => [1]) (fun _ => [[1]]) (fun _ => [-1])
    (fun _ _ => [[0]]) (fun _ _ => [[0]]) 1 1 [0] [1] [[1]]).2.2.2.2.2.2.2
    rfl (by decide) rfl rfl

/-- The BFGS phase can only fail with the curvature-condition error. -/
lemma bfgsPhase_error_eq (cfg : Config) (iter : ℕ) (B : Mat) (alpha : ℚ) (p_x g g_old : Vec)
    (e : SolveError) (h : bfgsPhase cfg iter B alpha p_x g g_old = .error e) :
    e = .bfgsCondition := by
  simp only [bfgsPhase, bfgs_update] at h
  split at h
  · split at h
    · simp at h
    · simp only [Except.error.injEq] at h
      exact h.symm
  · simp at h

/-- Every error propagated out of the iteration loop comes from the BFGS
curvature assert, the line-search assert, or fuel exhaustion. -/
lemma solveLoop_error_cases (cfg : Config) (fF : Vec → ℚ) (gF : Vec → Vec) (hF : Vec → Mat)
    (cF : Vec → Vec) (jF wF : Vec → Vec → Mat) (n m lsFuel : ℕ) :
    ∀ (remaining iter : ℕ) (st : LoopState) (e : SolveError),
      (solveLoop cfg fF gF hF cF jF wF n m lsFuel remaining iter st).result = .error e →
      e = .bfgsCondition ∨ e = .lineSearchTooSmall ∨ e = .outOfFuel := by
  intro remaining
  induction remaining with
  | zero =>
    intro iter st e h
    simp [solveLoop] at h
  | succ r ih =>
    intro iter st e h
    simp only [solveLoop] at h
    split at h
    · simp at h
    · split at h
      · rename_i e1 heq
        simp only [Except.error.injEq] at h
        exact Or.inl (h ▸ bfgsPhase_error_eq _ _ _ _ _ _ _ _ heq)
      · split at h
        · simp only [Except.error.injEq] at h
          exact Or.inr (Or.inl h.symm)
        · simp only [Except.error.injEq] at h
          exact Or.inr (Or.inr h.symm)
        · simp only [] at h
          exact ih _ _ _ h

/-- Claim C7 (amended): the solver performs no definiteness or finiteness
check on the reduced-system factorization: no solve ever reports a
linear-algebra failure, the direction returned by the factorization solve
being used unconditionally (see `stepDirections`). -/
theorem claim_C7 :
    ∀ (cfg : Config) (P : Problem) (x : Vec) (fuel : ℕ),
      isFactorizationError (solve cfg P x fuel) = false := by
  intro cfg P x fuel
  obtain ⟨o1, o2, o3, o4, o5, o6⟩ := P
  cases o1 with
  | none => rfl
  | some fF =>
  cases o2 with
  | none => rfl
  | some gF =>
  simp only [solve]
  split
  · rfl
  · cases o4 with
    | none => rfl
    | some cF =>
    cases o5 with
    | none => rfl
    | some jF =>
    cases o6 with
    | none => rfl
    | some wF =>
    simp only [solveMain, isFactorizationError]
    split
    · rename_i heq
      rcases solveLoop_error_cases cfg fF gF _ cF jF wF _ _ fuel _ 0 _ _ heq
        with h | h | h <;> simp at h
    · rfl

/-- Claim C8: `solve` raises a configuration (null-callback) error before
executing any iteration exactly when a required callback is null: objective,
gradient, constraints, jacobian and lagrangian Hessian in every descent
mode, while the objective Hessian is required only in NEWTON mode. -/
theorem claim_C8 :
    ∀ (cfg : Config) (P : Problem) (x : Vec) (fuel : ℕ),
      (isNullCallbackError (solve cfg P x fuel) ↔
        (P.objective.isNone ∨ P.objective_gradient.isNone
          ∨ (cfg.descent = Descent.NEWTON ∧ P.objective_hessian.isNone)
          ∨ P.constraints.isNone ∨ P.constraints_jacobian.isNone
          ∨ P.lagrangian_hessian.isNone))
      ∧ ((P.objective.isNone ∨ P.objective_gradient.isNone
          ∨ (cfg.descent = Descent.NEWTON ∧ P.objective_hessian.isNone)
          ∨ P.constraints.isNone ∨ P.constraints_jacobian.isNone
          ∨ P.lagrangian_hessian.isNone) →
        (solve cfg P x fuel).iters = 0 ∧ (solve cfg P x fuel).rows = []
          ∧ (solve cfg P x fuel).header = false) := by
  intro cfg P x fuel
  obtain ⟨o1, o2, o3, o4, o5, o6⟩ := P
  cases o1 with
  | none => exact ⟨⟨fun _ => by simp, fun _ => ⟨"objective function must not be null", rfl⟩⟩,
      fun _ => ⟨rfl, rfl, rfl⟩⟩
  | some fF =>
  cases o2 with
  | none => exact ⟨⟨fun _ => by simp, fun _ => ⟨"gradient of the objective function must not be null", rfl⟩⟩,
      fun _ => ⟨rfl, rfl, rfl⟩⟩
  | some gF =>
  simp only [solve]
  split
  · rename_i hcond
    refine ⟨⟨fun _ => ?_, fun _ => ⟨"hessian of the objective function must not be null", rfl⟩⟩,
      fun _ => ⟨rfl, rfl, rfl⟩⟩
    simp [hcond]
  · rename_i hcond
    cases o4 with
    | none => exact ⟨⟨fun _ => by simp, fun _ => ⟨"constraints function must not be null", rfl⟩⟩,
        fun _ => ⟨rfl, rfl, rfl⟩⟩
    | some cF =>
    cases o5 with
    | none => exact ⟨⟨fun _ => by simp, fun _ => ⟨"jacobian of the constraints function must not be null", rfl⟩⟩,
        fun _ => ⟨rfl, rfl, rfl⟩⟩
    | some jF =>
    cases o6 with
    | none => exact ⟨⟨fun _ => by simp, fun _ => ⟨"lagrangian hessian function must not be null", rfl⟩⟩,
        fun _ => ⟨rfl, rfl, rfl⟩⟩
    | some wF =>
    constructor
    · constructor
      · rintro ⟨msg, hmsg⟩
        exfalso
        have := solveLoop_error_cases cfg fF gF _ cF jF wF _ _ fuel _ 0 _ _ hmsg
        rcases this with h | h | h <;> simp at h
      · intro hdisj
        exfalso
        rcases hdisj with h | h | h | h | h | h
        · simp at h
        · simp at h
        · exact hcond h
        · simp at h
        · simp at h
        · simp at h
    · intro hdisj
      exfalso
      rcases hdisj with h | h | h | h | h | h
      · simp at h
      · simp at h
      · exact hcond h
      · simp at h
      · simp at h
      · simp at h

/-- Transposition of a one-by-one matrix. -/
lemma transpose_single (x : ℚ) : List.transpose [[x]] = [[x]] := rfl

/-- The diagonal matrix of a one-entry vector. -/
lemma asDiagonal_single (x : ℚ) : asDiagonal [x] = [[x]] := rfl

/-- The one-by-one identity matrix. -/
lemma identityMat_one : identityMat 1 = [[1]] := rfl

/-- Configuration with simple exact values: the convergence tolerance sits
exactly at the initial residual ratio of `prob6`/`prob7`, and one outer
iteration is allowed. -/
def cfg6 : Config where
  descent := .BFGS
  tolerance := 1
  max_iterations := 1
  verbose := false
  epsilon := 1
  sigma_max := 1 / 2
  eta_max := 1 / 4
  mu_min := 1 / 100
  alpha_max := 1 / 2
  alpha_min := 1 / 100
  beta := 1 / 2
  tau := 1 / 100
  sqrt := fun q => q
  log := fun _ => 0
  log10 := fun q => q
  ldlt := ldlt1

/-- One-variable constant problem: `f = 0`, `g = [1]`, `c = [-1]`, zero
Jacobian and zero Lagrangian Hessian. -/
def prob6 : Problem :=
  ⟨some (fun _ => 0), some (fun _ => [1]), none, some (fun _ => [-1]),
    some (fun _ _ => [[0]]), some (fun _ _ => [[0]])⟩

/-- Like `prob6` but with Lagrangian Hessian `[[-3]]`, which makes the
reduced Hessian `H = B + W - JᵀSJ = [[-2]]` indefinite. -/
def prob7 : Problem :=
  ⟨some (fun _ => 0), some (fun _ => [1]), none, some (fun _ => [-1]),
    some (fun _ _ => [[0]]), some (fun _ _ => [[-3]])⟩

/-- Full evaluation of the iteration loop on `prob6`: the convergence check
fails at the boundary, one step is computed, and the line search accepts the
first candidate. -/
lemma loop6_eval : solveLoop cfg6 (fun _ => 0) (fun _ => [1]) (fun _ => []) (fun _ => [-1])
    (fun _ _ => [[0]]) (fun _ _ => [[0]]) 1 1 9 1 0 (initState [0] 1)
    = ⟨.ok [-1/2], [], 1, 1⟩ := by
  have hq : iterCompute cfg6 (fun _ => 0) (fun _ => [1]) (fun _ => []) (fun _ => [-1])
      (fun _ _ => [[0]]) (fun _ _ => [[0]]) 2 1 [0] [1] (identityMat 1)
      = ⟨0, [-1], [1], [[0]], [[0]], [[1]], [1], [-1], [1, -1], 2, 1/4, 1/2, 1, 1/2⟩ := by
    norm_num [iterCompute, dot, vadd, hadamard, matVec, cfg6, identityMat_one,
      transpose_single, (show Descent.BFGS ≠ Descent.NEWTON from fun h => nomatch h)]
  have hbf : bfgsPhase cfg6 0 [[1]] 0 [] [1] [] = .ok [[1]] := by
    simp [bfgsPhase]
  have hsd : stepDirections cfg6 [[1]] [[0]] [[0]] [-1] [1] [1] (1/2) = ([-1], [-(3/4)]) := by
    norm_num [stepDirections, reducedHessian, dot, vadd, vsub, vneg, smul, matVec, matMul,
      matAdd, matSub, cfg6, ldlt1, transpose_single, asDiagonal_single]
  have hftb : fractionToBoundary cfg6 [1] [-(3/4)] = 1/2 := by
    norm_num [fractionToBoundary, cfg6]
  have hpsi : merit cfg6 [0] [1] 0 [-1] (1/2) = 1 := by
    norm_num [merit, dot, cfg6]
  have hdpsi : grad_merit cfg6 [0] [1] [-1] [-(3/4)] [1] [-1] [[0]] (1/2) = -(25/16) := by
    norm_num [grad_merit, dot, vadd, vsub, smul, matVec, cfg6, transpose_single]
  have hls : lineSearch cfg6 (fun _ => 0) (fun _ => [-1]) [-1] [-(3/4)] 1 (-(25/16)) (1/4) (1/2)
      [0] [1] (1/2) 0 9 = .accepted [-(1/2)] [5/8] (1/2) 1 := by
    simp only [lineSearch]
    rw [if_pos]
    · norm_num [vadd, smul]
    · constructor
      · intro ci hci
        simp only [List.mem_singleton] at hci
        norm_num [hci]
      · norm_num [merit, dot, vadd, smul, cfg6]
  simp only [solveLoop, initState, List.replicate_one]
  norm_num [hq, hbf, hsd, hftb, hpsi, hdpsi, hls, nextState,
    (show cfg6.verbose = false from rfl), (show cfg6.tolerance = 1 from rfl)]

/-- Outcome of `solve` on `prob6` with the tolerance at the exact residual
ratio: a full iteration runs and the iterate moves. -/
lemma solve6_eval : solve cfg6 prob6 [0] 9 = ⟨.ok [-1/2], false, [], 1, 1⟩ := by
  simp only [solve, prob6, Option.getD_none]
  rw [if_neg (by decide)]
  simp only [solveMain, List.length_cons, List.length_nil]
  norm_num [loop6_eval, (show cfg6.max_iterations = 1 from rfl),
    (show cfg6.verbose = false from rfl)]

/-- Full evaluation of the iteration loop on `prob7` (indefinite reduced
Hessian): the step is computed and accepted as usual. -/
lemma loop7_eval : solveLoop cfg6 (fun _ => 0) (fun _ => [1]) (fun _ => []) (fun _ => [-1])
    (fun _ _ => [[0]]) (fun _ _ => [[-3]]) 1 1 9 1 0 (initState [0] 1)
    = ⟨.ok [1/4], [], 1, 1⟩ := by
  have hq : iterCompute cfg6 (fun _ => 0) (fun _ => [1]) (fun _ => []) (fun _ => [-1])
      (fun _ _ => [[0]]) (fun _ _ => [[-3]]) 2 1 [0] [1] (identityMat 1)
      = ⟨0, [-1], [1], [[0]], [[-3]], [[1]], [1], [-1], [1, -1], 2, 1/4, 1/2, 1, 1/2⟩ := by
    norm_num [iterCompute, dot, vadd, hadamard, matVec, cfg6, identityMat_one,
      transpose_single, (show Descent.BFGS ≠ Descent.NEWTON from fun h => nomatch h)]
  have hbf : bfgsPhase cfg6 0 [[1]] 0 [] [1] [] = .ok [[1]] := by
    simp [bfgsPhase]
  have hsd : stepDirections cfg6 [[1]] [[-3]] [[0]] [-1] [1] [1] (1/2) = ([1/2], [-(3/4)]) := by
    norm_num [stepDirections, reducedHessian, dot, vadd, vsub, vneg, smul, matVec, matMul,
      matAdd, matSub, cfg6, ldlt1, transpose_single, asDiagonal_single]
  have hftb : fractionToBoundary cfg6 [1] [-(3/4)] = 1/2 := by
    norm_num [fractionToBoundary, cfg6]
  have hpsi : merit cfg6 [0] [1] 0 [-1] (1/2) = 1 := by
    norm_num [merit, dot, cfg6]
  have hdpsi : grad_merit cfg6 [0] [1] [1/2] [-(3/4)] [1] [-1] [[0]] (1/2) = -(1/16) := by
    norm_num [grad_merit, dot, vadd, vsub, smul, matVec, cfg6, transpose_single]
  have hls : lineSearch cfg6 (fun _ => 0) (fun _ => [-1]) [1/2] [-(3/4)] 1 (-(1/16)) (1/4) (1/2)
      [0] [1] (1/2) 0 9 = .accepted [1/4] [5/8] (1/2) 1 := by
    simp only [lineSearch]
    rw [if_pos]
    · norm_num [vadd, smul]
    · constructor
      · intro ci hci
        simp only [List.mem_singleton] at hci
        norm_num [hci]
      · norm_num [merit, dot, vadd, smul, cfg6]
  simp only [solveLoop, initState, List.replicate_one]
  norm_num [hq, hbf, hsd, hftb, hpsi, hdpsi, hls, nextState,
    (show cfg6.verbose = false from rfl), (show cfg6.tolerance = 1 from rfl)]

/-- Outcome of `solve` on `prob7`: the solver succeeds although the reduced
Hessian of its only iteration is indefinite. -/
lemma solve7_eval : solve cfg6 prob7 [0] 9 = ⟨.ok [1/4], false, [], 1, 1⟩ := by
  simp only [solve, prob7, Option.getD_none]
  rw [if_neg (by decide)]
  simp only [solveMain, List.length_cons, List.length_nil]
  norm_num [loop7_eval, (show cfg6.max_iterations = 1 from rfl),
    (show cfg6.verbose = false from rfl)]

/-- Counterexample to claim C7 as stated: on `prob7` the reduced Hessian of
the first (and only) iteration is indefinite, yet `solve` computes the step,
runs the line search and returns normally instead of reporting a failure and
stopping. -/
theorem claim_C7_counterexample :
    indefiniteQF (reducedHessian [[1]] [[-3]] [[0]]
      (asDiagonal (List.zipWith (fun zi ci => zi / ci) [1]
        (List.map (fun ci => ci - cfg6.epsilon) [-1]))))
    ∧ (solve cfg6 prob7 [0] 9).result = .ok [1/4]
    ∧ (solve cfg6 prob7 [0] 9).steps = 1 := by
  refine ⟨⟨[1], ?_⟩, ?_, ?_⟩
  · norm_num [reducedHessian, matMul, matAdd, matSub, matVec, vadd, vsub, dot,
      transpose_single, asDiagonal_single, (show cfg6.epsilon = 1 from rfl)]
  · rw [solve7_eval]
  · rw [solve7_eval]

/-- Claim C6 (amended): whenever the configured tolerance strictly exceeds
`‖r₀‖/(n+m)` evaluated at `x_guess` (the source's convergence test is the
strict inequality `‖r₀‖/ν < tolerance`), `solve` returns after a single
convergence check, computing no step and no line search, and the returned
vector equals `x_guess`. -/
theorem claim_C6 :
    ∀ (cfg : Config) (P : Problem) (fF : Vec → ℚ) (gF : Vec → Vec) (cF : Vec → Vec)
      (jF wF : Vec → Vec → Mat) (x_guess : Vec) (lsFuel : ℕ),
      P.objective = some fF → P.objective_gradient = some gF → P.constraints = some cF →
      P.constraints_jacobian = some jF → P.lagrangian_hessian = some wF →
      ¬(cfg.descent = Descent.NEWTON ∧ P.objective_hessian.isNone) →
      0 < cfg.max_iterations →
      (iterCompute cfg fF gF (P.objective_hessian.getD (fun _ => [])) cF jF wF
          (x_guess.length + (cF x_guess).length) (cF x_guess).length x_guess
          (List.replicate (cF x_guess).length 1) (identityMat x_guess.length)).norm_r0
        / ((x_guess.length + (cF x_guess).length : ℕ) : ℚ) < cfg.tolerance →
      (solve cfg P x_guess lsFuel).result = .ok x_guess
        ∧ (solve cfg P x_guess lsFuel).steps = 0
        ∧ (solve cfg P x_guess lsFuel).iters = 1 := by
  intro cfg P fF gF cF jF wF x_guess lsFuel h1 h2 h3 h4 h5 h6 h7 h8
  rcases Nat.exists_eq_succ_of_ne_zero (Nat.pos_iff_ne_zero.mp h7) with ⟨r, hr⟩
  simp only [solve, h1, h2, h3, h4, h5]
  rw [if_neg h6]
  simp only [solveMain, hr, solveLoop, initState]
  rw [if_pos h8]
  exact ⟨rfl, rfl, rfl⟩

/-- Witness for claim C6: `prob6` with the tolerance raised to ten converges
at the first check and returns the guess. -/
theorem claim_C6_witness :
    (solve { cfg6 with tolerance := 10 } prob6 [0] 9).result = .ok [0]
    ∧ (solve { cfg6 with tolerance := 10 } prob6 [0] 9).steps = 0
    ∧ (solve { cfg6 with tolerance := 10 } prob6 [0] 9).iters = 1 :=
  claim_C6 { cfg6 with tolerance := 10 } prob6 (fun _ => 0) (fun _ => [1]) (fun _ => [-1])
    (fun _ _ => [[0]]) (fun _ _ => [[0]]) [0] 9 rfl rfl rfl rfl rfl (by decide) (by decide)
    (by norm_num [iterCompute, dot, vadd, hadamard, matVec, cfg6, identityMat_one,
      transpose_single, (show Descent.BFGS ≠ Descent.NEWTON from fun h => nomatch h)])

/-- Counterexample to claim C6 as stated: with the tolerance exactly equal
to `‖r₀‖/(n+m)` at `x_guess` (so `tolerance ≥ ‖r₀‖/(n+m)` holds), the
strict convergence test fails, a step is computed and the returned vector
differs from the guess. -/
theorem claim_C6_counterexample :
    cfg6.tolerance
      = (iterCompute cfg6 (fun _ => 0) (fun _ => [1]) (fun _ => []) (fun _ => [-1])
          (fun _ _ => [[0]]) (fun _ _ => [[0]]) 2 1 [0] [1] (identityMat 1)).norm_r0
        / ((2 : ℕ) : ℚ)
    ∧ (solve cfg6 prob6 [0] 9).result = .ok [-1/2]
    ∧ (solve cfg6 prob6 [0] 9).steps = 1 := by
  refine ⟨?_, ?_, ?_⟩
  · norm_num [iterCompute, dot, vadd, hadamard, matVec, cfg6, identityMat_one,
      transpose_single, (show Descent.BFGS ≠ Descent.NEWTON from fun h => nomatch h)]
  · rw [solve6_eval]
  · rw [solve6_eval]

/-- Witness for claim C8: with a null objective the solve reports the
configuration error and executes no iteration. -/
theorem claim_C8_witness :
    isNullCallbackError (solve cfgD probNull [0] 1)
    ∧ (solve cfgD probNull [0] 1).iters = 0 :=
  ⟨(claim_C8 cfgD probNull [0] 1).1.mpr (Or.inl rfl),
    ((claim_C8 cfgD probNull [0] 1).2 (Or.inl rfl)).1⟩

/-- With verbosity disabled the iteration loop emits no rows. -/
lemma solveLoop_rows_nil (cfg : Config) (fF : Vec → ℚ) (gF : Vec → Vec) (hF : Vec → Mat)
    (cF : Vec → Vec) (jF wF : Vec → Vec → Mat) (n m lsFuel : ℕ)
    (hv : cfg.verbose = false) :
    ∀ (remaining iter : ℕ) (st : LoopState),
      (solveLoop cfg fF gF hF cF jF wF n m lsFuel remaining iter st).rows = [] := by
  intro remaining
  induction remaining with
  | zero =>
    intro iter st
    simp [solveLoop]
  | succ r ih =>
    intro iter st
    simp only [solveLoop, hv, Bool.false_eq_true, if_false]
    split
    · rfl
    · split
      · rfl
      · split
        · rfl
        · rfl
        · simp only [List.nil_append]
          exact ih (iter + 1) _

/-- With verbosity enabled the iteration loop emits exactly one row per
entry, the `j`-th emitted row carries the one-based index `iter + j + 1`,
and the first row is built from the entry state (whose `alpha` and `ls` are
those of the previous iteration). -/
lemma solveLoop_shape (cfg : Config) (fF : Vec → ℚ) (gF : Vec → Vec) (hF : Vec → Mat)
    (cF : Vec → Vec) (jF wF : Vec → Vec → Mat) (n m lsFuel : ℕ)
    (hv : cfg.verbose = true) :
    ∀ (remaining iter : ℕ) (st : LoopState),
      ((solveLoop cfg fF gF hF cF jF wF n m lsFuel remaining iter st).rows.length
        = (solveLoop cfg fF gF hF cF jF wF n m lsFuel remaining iter st).iters)
      ∧ (∀ (j : ℕ) (row : Row),
          (solveLoop cfg fF gF hF cF jF wF n m lsFuel remaining iter st).rows[j]? = some row →
          row.iter = iter + j + 1)
      ∧ (0 < (solveLoop cfg fF gF hF cF jF wF n m lsFuel remaining iter st).iters →
          (solveLoop cfg fF gF hF cF jF wF n m lsFuel remaining iter st).rows.head?
            = some (mkRow cfg iter
                (iterCompute cfg fF gF hF cF jF wF (n + m) m st.x st.z st.B)
                st.alpha st.ls)) := by
  intro remaining
  induction remaining with
  | zero =>
    intro iter st
    refine ⟨rfl, ?_, ?_⟩
    · intro j row h
      simp [solveLoop] at h
    · intro hpos
      simp [solveLoop] at hpos
  | succ r ih =>
    intro iter st
    simp only [solveLoop, hv, if_true]
    split
    · refine ⟨rfl, ?_, fun _ => rfl⟩
      intro j row h
      cases j with
      | zero =>
        simp only [List.getElem?_cons_zero, Option.some.injEq] at h
        rw [← h]
        simp [mkRow]
      | succ k =>
        simp at h
    · split
      · refine ⟨rfl, ?_, fun _ => rfl⟩
        intro j row h
        cases j with
        | zero =>
          simp only [List.getElem?_cons_zero, Option.some.injEq] at h
          rw [← h]
          simp [mkRow]
        | succ k =>
          simp at h
      · split
        · refine ⟨rfl, ?_, fun _ => rfl⟩
          intro j row h
          cases j with
          | zero =>
            simp only [List.getElem?_cons_zero, Option.some.injEq] at h
            rw [← h]
            simp [mkRow]
          | succ k =>
            simp at h
        · refine ⟨rfl, ?_, fun _ => rfl⟩
          intro j row h
          cases j with
          | zero =>
            simp only [List.getElem?_cons_zero, Option.some.injEq] at h
            rw [← h]
            simp [mkRow]
          | succ k =>
            simp at h
        · simp only [List.singleton_append]
          refine ⟨?_, ?_, fun _ => rfl⟩
          · simp only [List.length_cons]
            exact congrArg (· + 1) (ih (iter + 1) _).1
          · intro j row h
            cases j with
            | zero =>
              simp only [List.getElem?_cons_zero, Option.some.injEq] at h
              rw [← h]
              simp [mkRow]
            | succ k =>
              simp only [List.getElem?_cons_succ] at h
              have h2 := (ih (iter + 1) _).2.1 k row h
              omega

/-- Claim C9 (amended): provided pre-solve validation passes (no required
callback is null), `solve` emits the header exactly when verbose is enabled,
emits no rows when verbose is disabled, and when verbose is enabled emits
exactly one data row per executed iteration; the `j`-th row carries the
1-based iteration index `j + 1`; the first row is built from the initial
state, whose `alpha` and `ls` are both zero before the first line search;
and each row carries, in order, `i, f, log10(mu), sigma, ||r_x||, ||r_c||,
alpha, ls`. -/
theorem claim_C9 :
    ∀ (cfg : Config) (P : Problem) (fF : Vec → ℚ) (gF : Vec → Vec) (cF : Vec → Vec)
      (jF wF : Vec → Vec → Mat) (x : Vec) (fuel : ℕ),
      P.objective = some fF → P.objective_gradient = some gF → P.constraints = some cF →
      P.constraints_jacobian = some jF → P.lagrangian_hessian = some wF →
      ¬(cfg.descent = Descent.NEWTON ∧ P.objective_hessian.isNone) →
      (solve cfg P x fuel).header = cfg.verbose
      ∧ (cfg.verbose = false → (solve cfg P x fuel).rows = [])
      ∧ (cfg.verbose = true →
          (solve cfg P x fuel).rows.length = (solve cfg P x fuel).iters)
      ∧ (cfg.verbose = true → ∀ (j : ℕ) (row : Row),
          (solve cfg P x fuel).rows[j]? = some row → row.iter = j + 1)
      ∧ (cfg.verbose = true → 0 < (solve cfg P x fuel).iters →
          (solve cfg P x fuel).rows.head?
            = some (mkRow cfg 0
                (iterCompute cfg fF gF (P.objective_hessian.getD (fun _ => [])) cF jF wF
                  (x.length + (cF x).length) (cF x).length x
                  (List.replicate (cF x).length 1) (identityMat x.length)) 0 0))
      ∧ (∀ (i : ℕ) (q : IterData) (a : ℚ) (l : ℕ),
          (mkRow cfg i q a l).iter = i + 1 ∧ (mkRow cfg i q a l).f = q.f
          ∧ (mkRow cfg i q a l).log10_mu = cfg.log10 q.mu
          ∧ (mkRow cfg i q a l).sigma = q.sigma
          ∧ (mkRow cfg i q a l).norm_r_x = vnorm cfg q.r_x
          ∧ (mkRow cfg i q a l).norm_r_c = vnorm cfg q.r_c
          ∧ (mkRow cfg i q a l).alpha = a ∧ (mkRow cfg i q a l).ls = l) := by
  intro cfg P fF gF cF jF wF x fuel h1 h2 h3 h4 h5 h6
  simp only [solve, h1, h2, h3, h4, h5]
  rw [if_neg h6]
  simp only [solveMain]
  refine ⟨trivial, ?_, ?_, ?_, ?_, ?_⟩
  · intro hv
    exact solveLoop_rows_nil cfg fF gF _ cF jF wF _ _ fuel hv _ 0 _
  · intro hv
    exact (solveLoop_shape cfg fF gF _ cF jF wF _ _ fuel hv _ 0 _).1
  · intro hv j row h
    have h2j := (solveLoop_shape cfg fF gF _ cF jF wF _ _ fuel hv _ 0 _).2.1 j row h
    omega
  · intro hv hpos
    have hh := (solveLoop_shape cfg fF gF _ cF jF wF _ _ fuel hv _ 0 _).2.2 hpos
    simpa [initState] using hh
  · intro i q a l
    exact ⟨rfl, rfl, rfl, rfl, rfl, rfl, rfl, rfl⟩

/-- Configuration like `cfg6` but with verbose output enabled. -/
def cfgV : Config := { cfg6 with verbose := true }

/-- Witness for claim C9: on a concrete verbose run the header flag equals
the verbosity and the row count matches the iteration count. -/
theorem claim_C9_witness :
    (solve cfgV prob6 [0] 9).header = cfgV.verbose
    ∧ (cfgV.verbose = true →
        (solve cfgV prob6 [0] 9).rows.length = (solve cfgV prob6 [0] 9).iters) :=
  ⟨(claim_C9 cfgV prob6 (fun _ => 0) (fun _ => [1]) (fun _ => [-1]) (fun _ _ => [[0]])
      (fun _ _ => [[0]]) [0] 9 rfl rfl rfl rfl rfl (by decide)).1,
    (claim_C9 cfgV prob6 (fun _ => 0) (fun _ => [1]) (fun _ => [-1]) (fun _ _ => [[0]])
      (fun _ _ => [[0]]) [0] 9 rfl rfl rfl rfl rfl (by decide)).2.2.1⟩

/-- Counterexample to claim C9 as stated: with verbose enabled but a null
objective callback, the entry assert throws before the header is printed, so
a verbose solve emits no header line at all. -/
theorem claim_C9_counterexample :
    cfgV.verbose = true
    ∧ (solve cfgV probNull [0] 1).header = false
    ∧ (solve cfgV probNull [0] 1).rows = [] := by
  refine ⟨rfl, ?_, ?_⟩ <;> simp [solve, probNull, nullOut]

end IPsolver
